import Mathlib

/-!
Verification of the MIDI-to-CV core of `src/src/core/MidiInterface.cpp`
(WaveEdit repository): a monophonic last-note-priority note stack with
sustain pedal, driven by raw packed MIDI words, producing a gate and a
pitch output.
-/

namespace Midi

/-- State of the `MidiInterface` module: the held-note stack `notes`
(`std::list<int> notes`), the sustain pedal flag, the gate flag, the
currently sounding note (default 64) and the pitch wheel value
(default 64). -/
structure MidiState where
  notes : List Int
  pedal : Bool
  gate : Bool
  note : Int
  pitchWheel : Int
deriving DecidableEq

/-- Initial state of a freshly constructed module: empty stack,
`pedal = false`, `gate = false`, `note = 64`, `pitchWheel = 64`. -/
def initState : MidiState :=
  { notes := [], pedal := false, gate := false, note := 64, pitchWheel := 64 }

/-- `MidiInterface::pressNote`: remove the first occurrence of `n` from the
stack if present (`std::find` + `erase`; `List.erase` is a no-op when `n`
is absent, matching the guarded erase), push `n` to the back, open the
gate and make `n` the sounding note. -/
def pressNote (s : MidiState) (n : Int) : MidiState :=
  { s with notes := s.notes.erase n ++ [n], gate := true, note := n }

/-- `MidiInterface::releaseNote`: remove the first occurrence of `n` from
the stack if present; then, if the pedal is held do nothing further, else
if the stack is non-empty make its last element the sounding note, else
close the gate. -/
def releaseNote (s : MidiState) (n : Int) : MidiState :=
  if s.pedal then
    { s with notes := s.notes.erase n }
  else
    match (s.notes.erase n).getLast? with
    | some m => { s with notes := s.notes.erase n, note := m }
    | none => { s with notes := s.notes.erase n, gate := false }

/-- `MidiInterface::processMidi`: decode the packed raw word into
channel / status / data1 / data2, drop messages whose channel is not 0,
and dispatch on the status nibble exactly as the `switch` does
(note-off, note-on with the velocity-0 convention, sustain-pedal control
change with the `releaseNote(-1)` re-evaluation, pitch wheel). -/
def processMidi (s : MidiState) (msg : Nat) : MidiState :=
  let channel := msg &&& 0xf
  let status := (msg >>> 4) &&& 0xf
  let data1 := (msg >>> 8) &&& 0xff
  let data2 := (msg >>> 16) &&& 0xff
  if channel ≠ 0 then s
  else if status = 0x8 then
    releaseNote s (Int.ofNat data1)
  else if status = 0x9 then
    if data2 ≠ 0 then pressNote s (Int.ofNat data1)
    else releaseNote s (Int.ofNat data1)
  else if status = 0xb then
    if data1 = 0x40 then
      releaseNote { s with pedal := decide (64 ≤ data2) } (-1)
    else s
  else if status = 0xe then
    { s with pitchWheel := Int.ofNat data2 }
  else s

/-- Process a batch of raw MIDI words in arrival order. -/
def processAll (s : MidiState) (msgs : List Nat) : MidiState :=
  msgs.foldl processMidi s

/-- A state is reachable when some sequence of raw MIDI words leads to it
from the initial state. -/
def Reachable (s : MidiState) : Prop :=
  ∃ msgs : List Nat, processAll initState msgs = s

/-- A direct call to `pressNote` or `releaseNote`. -/
inductive NoteOp where
  | press (n : Int)
  | release (n : Int)

/-- Apply one `pressNote` / `releaseNote` call. -/
def applyOp (s : MidiState) : NoteOp → MidiState
  | .press n => pressNote s n
  | .release n => releaseNote s n

/-- Apply a sequence of `pressNote` / `releaseNote` calls in order. -/
def applyOps (s : MidiState) (ops : List NoteOp) : MidiState :=
  ops.foldl applyOp s

/-- The pitch output computed each cycle in `MidiInterface::step`:
`((note - 64) + 2.0*(pitchWheel - 64) / 64.0) / 12.0`, in exact rational
arithmetic. -/
def pitchOutput (s : MidiState) : ℚ :=
  (((s.note : ℚ) - 64) + 2 * ((s.pitchWheel : ℚ) - 64) / 64) / 12

/-- The gate output computed each cycle in `MidiInterface::step`:
`gate ? 5.0 : 0.0`. -/
def gateOutput (s : MidiState) : ℚ :=
  if s.gate then 5 else 0

/-- Core data invariant: stack entries lie in `[0, 256)` (they come from
`(msg >> 8) & 0xff`), the stack is duplicate-free, and the gate is open
whenever the stack is non-empty. -/
def InvCore (s : MidiState) : Prop :=
  (∀ x ∈ s.notes, 0 ≤ x ∧ x < 256) ∧ s.notes.Nodup ∧ (s.notes ≠ [] → s.gate = true)

/-- Full invariant: the core invariant, and with the pedal up the sounding
note is the last (most recently pressed) stack entry whenever the stack is
non-empty. -/
def Inv (s : MidiState) : Prop :=
  InvCore s ∧ (s.pedal = false → s.notes ≠ [] → s.notes.getLast? = some s.note)

theorem notes_releaseNote (s : MidiState) (n : Int) :
    (releaseNote s n).notes = s.notes.erase n := by
  unfold releaseNote
  split
  · rfl
  · split <;> rfl

theorem pedal_releaseNote (s : MidiState) (n : Int) :
    (releaseNote s n).pedal = s.pedal := by
  unfold releaseNote
  split
  · rfl
  · split <;> rfl

theorem nodup_pressNote {s : MidiState} (h : s.notes.Nodup) (n : Int) :
    (pressNote s n).notes.Nodup := by
  have h2 : n ∉ s.notes.erase n := fun hmem => ((h.mem_erase_iff).mp hmem).1 rfl
  simp only [pressNote, List.nodup_append, List.nodup_singleton, true_and]
  exact ⟨h.erase n, fun x hx hx1 => h2 (by simpa [List.mem_singleton.mp hx1] using hx)⟩

theorem nodup_releaseNote {s : MidiState} (h : s.notes.Nodup) (n : Int) :
    (releaseNote s n).notes.Nodup := by
  rw [notes_releaseNote]
  exact h.erase n

theorem inv_pressNote {s : MidiState} {n : Int} (h : InvCore s)
    (h0 : 0 ≤ n) (h1 : n < 256) : Inv (pressNote s n) := by
  refine ⟨⟨?_, nodup_pressNote h.2.1 n, fun _ => rfl⟩, fun _ _ => ?_⟩
  · intro x hx
    rcases List.mem_append.mp hx with hx | hx
    · exact h.1 x (List.erase_subset _ _ hx)
    · rw [List.mem_singleton.mp hx]; exact ⟨h0, h1⟩
  · show (s.notes.erase n ++ [n]).getLast? = some n
    exact List.getLast?_concat _

theorem inv_releaseNote {s : MidiState} (h : InvCore s) (n : Int) :
    Inv (releaseNote s n) := by
  have hrange : ∀ x ∈ s.notes.erase n, 0 ≤ x ∧ x < 256 :=
    fun x hx => h.1 x (List.erase_subset _ _ hx)
  have hne : s.notes.erase n ≠ [] → s.notes ≠ [] := by
    intro he h0
    rw [h0] at he
    exact he (List.erase_nil n)
  have hnodup := h.2.1.erase n
  unfold releaseNote
  split
  · rename_i hp
    exact ⟨⟨hrange, hnodup, fun he => h.2.2 (hne he)⟩, fun hpf => by simp [hp] at hpf⟩
  · split
    · rename_i m hm
      exact ⟨⟨hrange, hnodup, fun he => h.2.2 (hne he)⟩, fun _ _ => hm⟩
    · rename_i hm
      have he : s.notes.erase n = [] := List.getLast?_eq_none_iff.mp hm
      exact ⟨⟨hrange, hnodup, fun h0 => absurd he h0⟩, fun _ h0 => absurd he h0⟩

theorem invCore_setPedal {s : MidiState} (h : InvCore s) (b : Bool) :
    InvCore { s with pedal := b } := h

theorem inv_setPitchWheel {s : MidiState} (h : Inv s) (w : Int) :
    Inv { s with pitchWheel := w } := h

theorem inv_processMidi {s : MidiState} (h : Inv s) (msg : Nat) :
    Inv (processMidi s msg) := by
  have hd1 : ((msg >>> 8) &&& 0xff) < 256 := Nat.lt_succ_of_le Nat.and_le_right
  simp only [processMidi]
  split
  · exact h
  split
  · exact inv_releaseNote h.1 _
  split
  · split
    · exact inv_pressNote h.1 (Int.ofNat_nonneg _) (Int.ofNat_lt.mpr hd1)
    · exact inv_releaseNote h.1 _
  split
  · split
    · exact inv_releaseNote (invCore_setPedal h.1 _) _
    · exact h
  split
  · exact inv_setPitchWheel h _
  · exact h

theorem inv_processAll {s : MidiState} (h : Inv s) (msgs : List Nat) :
    Inv (processAll s msgs) := by
  induction msgs generalizing s with
  | nil => exact h
  | cons m ms ih => exact ih (inv_processMidi h m)

theorem inv_init : Inv initState := by
  simp [Inv, InvCore, initState]

theorem inv_reachable {s : MidiState} (h : Reachable s) : Inv s := by
  obtain ⟨msgs, rfl⟩ := h
  exact inv_processAll inv_init msgs

/-- Claim C1, counterexample: the claim quantifies over every state with the
pedal up and a non-empty remaining stack, but in the (unreachable) state with
notes `[60, 64]` and the gate closed, `releaseNote 64` leaves the gate closed:
`releaseNote` never re-opens the gate, it only leaves it unchanged in the
non-empty branch. -/
theorem C1_gate_counterexample :
    (({ notes := [60, 64], pedal := false, gate := false, note := 64,
        pitchWheel := 64 } : MidiState)).pedal = false ∧
    (({ notes := [60, 64], pedal := false, gate := false, note := 64,
        pitchWheel := 64 } : MidiState)).notes.erase 64 ≠ [] ∧
    ¬ (releaseNote ({ notes := [60, 64], pedal := false, gate := false, note := 64, pitchWheel := 64 } : MidiState) 64).gate = true := by
  decide

/-- Claim C1 (amended to reachable states): in every reachable state with the
pedal not held in which, after removing the released note, the stack is still
non-empty, `releaseNote` sets the sounding note to the most recently pressed
remaining stack entry and the gate is open afterwards; in particular
press(60), press(64), release(64) with the pedal up yields sounding note 60
with the gate still open. -/
theorem C1_last_note_priority (s : MidiState) (n : Int) (h : Reachable s)
    (hp : s.pedal = false) (hne : s.notes.erase n ≠ []) :
    (s.notes.erase n).getLast? = some (releaseNote s n).note ∧
    (releaseNote s n).gate = true := by
  have hinv := inv_reachable h
  have hne0 : s.notes ≠ [] := fun h0 => hne (by rw [h0]; exact List.erase_nil n)
  have hgate : s.gate = true := hinv.1.2.2 hne0
  obtain ⟨m, hm⟩ : ∃ m, (s.notes.erase n).getLast? = some m := by
    cases hgl : (s.notes.erase n).getLast?
    · exact absurd (List.getLast?_eq_none_iff.mp hgl) hne
    · exact ⟨_, rfl⟩
  refine ⟨?_, ?_⟩ <;> simp [releaseNote, hp, hm, hgate]

/-- Witness for C1 at the state after press(60), press(64). -/
theorem C1_last_note_priority_witness :
    (releaseNote (processAll initState [0x013C90, 0x014090]) 64).note = 60 ∧
    (releaseNote (processAll initState [0x013C90, 0x014090]) 64).gate = true :=
  ⟨Option.some.inj ((C1_last_note_priority (processAll initState [0x013C90, 0x014090]) 64
      ⟨[0x013C90, 0x014090], rfl⟩ (by decide) (by decide)).1.symm.trans (by decide)),
   (C1_last_note_priority (processAll initState [0x013C90, 0x014090]) 64
      ⟨[0x013C90, 0x014090], rfl⟩ (by decide) (by decide)).2⟩

/-- Claim C2: with the pedal held, `releaseNote n` removes `n` from the note
stack (if present — removal of the first occurrence by value) but leaves the
sounding note and the gate unchanged. -/
theorem C2_sustain_holds (s : MidiState) (n : Int) (hp : s.pedal = true) :
    (releaseNote s n).notes = s.notes.erase n ∧
    (releaseNote s n).note = s.note ∧
    (releaseNote s n).gate = s.gate := by
  simp [releaseNote, hp]

/-- Witness for C2 at the state after press(60), pedal-down (CC 0x40 value
127): releasing 60 keeps the gate open and the sounding note 60. -/
theorem C2_sustain_holds_witness :
    (processAll initState [0x013C90, 0x7F40B0]).pedal = true ∧
    (releaseNote (processAll initState [0x013C90, 0x7F40B0]) 60).note = 60 ∧
    (releaseNote (processAll initState [0x013C90, 0x7F40B0]) 60).gate = true :=
  ⟨by decide,
   ((C2_sustain_holds (processAll initState [0x013C90, 0x7F40B0]) 60 (by decide)).2.1).trans
     (by decide),
   ((C2_sustain_holds (processAll initState [0x013C90, 0x7F40B0]) 60 (by decide)).2.2).trans
     (by decide)⟩

/-- Claim C3: a channel-0 control change with data1 = 0x40 sets the pedal to
`data2 ≥ 64` and then always runs the release decision with the sentinel -1;
in a reachable state the sentinel is never a stack member, so the stack is
unchanged; and with the pedal previously held and the stack empty, a
pedal-up (`data2 < 64`) closes the gate. -/
theorem C3_pedal_cc (s : MidiState) (msg : Nat) (h : Reachable s)
    (hc : msg &&& 0xf = 0) (hs : (msg >>> 4) &&& 0xf = 0xb)
    (hd1 : (msg >>> 8) &&& 0xff = 0x40) :
    processMidi s msg = releaseNote { s with pedal := decide (64 ≤ (msg >>> 16) &&& 0xff) } (-1) ∧
    (processMidi s msg).notes = s.notes ∧
    (s.pedal = true → s.notes = [] → (msg >>> 16) &&& 0xff < 64 →
      (processMidi s msg).gate = false) := by
  have heq : processMidi s msg =
      releaseNote { s with pedal := decide (64 ≤ (msg >>> 16) &&& 0xff) } (-1) := by
    simp [processMidi, hc, hs, hd1]
  have hneg : (-1 : Int) ∉ s.notes := fun hmem => by
    have := (inv_reachable h).1.1 _ hmem
    omega
  have hnotes : (processMidi s msg).notes = s.notes := by
    rw [heq, notes_releaseNote]
    exact List.erase_of_not_mem hneg
  refine ⟨heq, hnotes, fun _ hemp hlt => ?_⟩
  rw [heq]
  have hdec : decide (64 ≤ (msg >>> 16) &&& 0xff) = false := by
    simp only [decide_eq_false_iff_not]
    omega
  simp [releaseNote, hdec, hemp]

/-- Witness for C3: press(60), pedal-down, release(60) (stack now empty,
pedal held, gate still open), then pedal-up closes the gate. -/
theorem C3_pedal_cc_witness :
    (processMidi (processAll initState [0x013C90, 0x7F40B0, 0x3C80]) 0x0040B0).gate = false :=
  (C3_pedal_cc (processAll initState [0x013C90, 0x7F40B0, 0x3C80]) 0x0040B0
      ⟨[0x013C90, 0x7F40B0, 0x3C80], rfl⟩ (by decide) (by decide) (by decide)).2.2
    (by decide) (by decide) (by decide)

/-- Claim C4: a channel-0 note-on (status 0x9) with velocity 0 produces
exactly the same state as a channel-0 note-off (status 0x8) with the same
data1, for every starting state. -/
theorem C4_vel0_noteon_eq_noteoff (s : MidiState) (m1 m2 : Nat)
    (hc1 : m1 &&& 0xf = 0) (hc2 : m2 &&& 0xf = 0)
    (hs1 : (m1 >>> 4) &&& 0xf = 0x9) (hs2 : (m2 >>> 4) &&& 0xf = 0x8)
    (hv : (m1 >>> 16) &&& 0xff = 0)
    (hd : (m1 >>> 8) &&& 0xff = (m2 >>> 8) &&& 0xff) :
    processMidi s m1 = processMidi s m2 := by
  simp [processMidi, hc1, hc2, hs1, hs2, hv, hd]

/-- Witness for C4: note-on 60 velocity 0 (word 0x3C90) equals note-off 60
(word 0x3C80) from the state in which 60 is held. -/
theorem C4_vel0_noteon_eq_noteoff_witness :
    processMidi (processAll initState [0x013C90]) 0x3C90 =
    processMidi (processAll initState [0x013C90]) 0x3C80 :=
  C4_vel0_noteon_eq_noteoff (processAll initState [0x013C90]) 0x3C90 0x3C80
    (by decide) (by decide) (by decide) (by decide) (by decide) (by decide)

/-- Claim C5: a raw word whose channel nibble is non-zero is dropped with no
state change at all. -/
theorem C5_channel_filter (s : MidiState) (msg : Nat) (h : msg &&& 0xf ≠ 0) :
    processMidi s msg = s := by
  simp [processMidi, h]

/-- Witness for C5: a note-on on channel 1 leaves the initial state
unchanged. -/
theorem C5_channel_filter_witness :
    processMidi initState 0x013C91 = initState :=
  C5_channel_filter initState 0x013C91 (by decide)

/-- Claim C6: every state reachable from the initial state by a sequence of
`pressNote` / `releaseNote` calls has a duplicate-free stack, and pressing an
already-held note leaves the stack size unchanged with the note moved to the
most-recent (last) position. -/
theorem C6_no_duplicates :
    (∀ ops : List NoteOp, ((applyOps initState ops).notes).Nodup) ∧
    (∀ (s : MidiState) (n : Int), n ∈ s.notes →
      (pressNote s n).notes.length = s.notes.length ∧
      (pressNote s n).notes.getLast? = some n) := by
  constructor
  · intro ops
    have hstep : ∀ s : MidiState, s.notes.Nodup → ((applyOps s ops).notes).Nodup := by
      induction ops with
      | nil => exact fun s h => h
      | cons op ops ih =>
        intro s h
        cases op with
        | press n => exact ih _ (nodup_pressNote h n)
        | release n => exact ih _ (nodup_releaseNote h n)
    exact hstep initState List.nodup_nil
  · intro s n hmem
    refine ⟨?_, List.getLast?_concat _⟩
    simp only [pressNote, List.length_append, List.length_singleton]
    exact List.length_erase_add_one hmem

/-- Witness for C6: press(60) twice from the initial state — duplicate-free,
size preserved, 60 still last. -/
theorem C6_no_duplicates_witness :
    ((applyOps initState [NoteOp.press 60, NoteOp.press 60]).notes).Nodup ∧
    (pressNote (pressNote initState 60) 60).notes.length =
      (pressNote initState 60).notes.length ∧
    (pressNote (pressNote initState 60) 60).notes.getLast? = some 60 :=
  ⟨C6_no_duplicates.1 [NoteOp.press 60, NoteOp.press 60],
   C6_no_duplicates.2 (pressNote initState 60) 60 (by decide)⟩

/-- Claim C7: the per-cycle pitch output is
`((note - 64) + 2 * (pitchWheel - 64) / 64) / 12` in exact rational
arithmetic; for note 76 with wheel 64 it is exactly 1, and with wheel 96 it
is exactly 13/12. -/
theorem C7_pitch_formula (s : MidiState) :
    pitchOutput s = (((s.note : ℚ) - 64) + 2 * ((s.pitchWheel : ℚ) - 64) / 64) / 12 ∧
    (s.note = 76 → s.pitchWheel = 64 → pitchOutput s = 1) ∧
    (s.note = 76 → s.pitchWheel = 96 → pitchOutput s = 13 / 12) := by
  refine ⟨rfl, fun h1 h2 => ?_, fun h1 h2 => ?_⟩ <;> norm_num [pitchOutput, h1, h2]

/-- Witness for C7 at the two concrete voice states of the claim. -/
theorem C7_pitch_formula_witness :
    pitchOutput ({ notes := [], pedal := false, gate := true, note := 76, pitchWheel := 64 } : MidiState) = 1 ∧
    pitchOutput ({ notes := [], pedal := false, gate := true, note := 76, pitchWheel := 96 } : MidiState) = 13 / 12 :=
  ⟨(C7_pitch_formula _).2.1 rfl rfl, (C7_pitch_formula _).2.2 rfl rfl⟩

/-- Claim C8, counterexample: the decoder masks data1 with 0xFF, not 0x7F, so
the raw word 0x01C890 (note-on, channel 0, data1 = 200, velocity 1) pushes
200 — outside the MIDI range [0,127] — onto the stack. -/
theorem C8_range_counterexample :
    (200 : Int) ∈ (processAll initState [0x01C890]).notes ∧
    ¬ ((200 : Int) ≤ 127) := by
  decide

/-- Claim C8 (amended): in every state reachable by processing raw MIDI
words from the initial state, every stack entry lies in [0,255] — the 8-bit
range of the 0xFF data1 mask, not the 7-bit MIDI note range. -/
theorem C8_note_range (s : MidiState) (h : Reachable s) :
    ∀ x ∈ s.notes, 0 ≤ x ∧ x ≤ 255 := by
  intro x hx
  have := (inv_reachable h).1.1 x hx
  omega

/-- Witness for C8 after pressing note 60. -/
theorem C8_note_range_witness :
    (60 : Int) ∈ (processAll initState [0x013C90]).notes ∧
    0 ≤ (60 : Int) ∧ (60 : Int) ≤ 255 :=
  ⟨by decide, C8_note_range (processAll initState [0x013C90]) ⟨[0x013C90], rfl⟩ 60 (by decide)⟩

/-- Claim C9: in every reachable state, if the note stack is non-empty then
the gate is open — the gate can only be closed when no keys remain. -/
theorem C9_gate_open_of_notes (s : MidiState) (h : Reachable s)
    (hne : s.notes ≠ []) : s.gate = true :=
  (inv_reachable h).1.2.2 hne

/-- Witness for C9 after pressing note 60. -/
theorem C9_gate_open_of_notes_witness :
    (processAll initState [0x013C90]).gate = true :=
  C9_gate_open_of_notes (processAll initState [0x013C90]) ⟨[0x013C90], rfl⟩ (by decide)

/-- Claim C10: in every reachable state with the pedal not held and a
non-empty stack, the sounding note is the most recently pressed (last) stack
entry. -/
theorem C10_last_note_sync (s : MidiState) (h : Reachable s)
    (hp : s.pedal = false) (hne : s.notes ≠ []) :
    s.notes.getLast? = some s.note :=
  (inv_reachable h).2 hp hne

/-- Witness for C10 after pressing note 60. -/
theorem C10_last_note_sync_witness :
    (processAll initState [0x013C90]).notes.getLast? = some 60 :=
  (C10_last_note_sync (processAll initState [0x013C90]) ⟨[0x013C90], rfl⟩
      (by decide) (by decide)).trans (by decide)

end Midi
